import Mathlib

/-!
Verification of the CATS NDI data-processing core.

A shallow embedding of the two core stages of `NDI_data_process.py`:

* `label_markers` — identity tracking over per-frame 3D marker detections
  (marker extraction, candidate collection under a distance gate,
  first-candidate assignment, previous-position state update);
* `interpolate_data` — per-column temporal resampling (source/target time
  axes, cubic-fit arity requirement, extrapolation policy).

Coordinates are modelled as exact rationals (`ℚ`) in place of float64, and
the strict distance comparison `‖p - q‖ < m` is expressed equivalently (for
real inputs) as `0 < m ∧ ‖p - q‖² < m²`, avoiding square roots.
-/

deriving instance DecidableEq for Except

namespace CATS

/-- A 3D point (one marker detection): the triple `(x, y, z)`. -/
structure Pt where
  x : ℚ
  y : ℚ
  z : ℚ
deriving DecidableEq, Repr

/-- Squared Euclidean distance between two points. -/
def sqDist (p q : Pt) : ℚ :=
  (p.x - q.x) * (p.x - q.x) + (p.y - q.y) * (p.y - q.y) +
    (p.z - q.z) * (p.z - q.z)

/-- The distance gate `np.linalg.norm(marker - prev) < max_position_change`
(line 184-185 of `NDI_data_process.py`).  For real numbers and a norm that is
nonnegative, `dist < m` holds iff `0 < m ∧ dist² < m²`; this form stays inside
`ℚ`. -/
def gate (mx : ℚ) (p q : Pt) : Bool :=
  decide (0 < mx ∧ sqDist p q < mx * mx)

/-- The sentinel test `x == 0 and y == 0 and z == 0` (line 164): the reserved
`(0,0,0)` triple means "no detection". -/
def isSentinel (p : Pt) : Bool :=
  p.x == 0 && p.y == 0 && p.z == 0

/-- The `i`-th coordinate triple of a row: columns `x{i+1}, y{i+1}, z{i+1}`,
which `clean_csv` lays out at flat positions `3i, 3i+1, 3i+2`. -/
def tripleAt (row : List ℚ) (i : ℕ) : Pt :=
  ⟨row.getD (3 * i) 0, row.getD (3 * i + 1) 0, row.getD (3 * i + 2) 0⟩

/-- The `markers` list of one frame (lines 158-165): iterate the complete
coordinate triples `i = 1 .. ncols // 3` in order, keeping those that are not
the `(0,0,0)` sentinel.  `ncols` is the column count of the dataframe
(`len(row.index)`). -/
def rowMarkers (ncols : ℕ) (row : List ℚ) : List Pt :=
  (List.range (ncols / 3)).filterMap fun i =>
    let p := tripleAt row i
    if isSentinel p then none else some p

/-- Marker identity: the dictionary keys `'marker1'` and `'marker2'`. -/
inductive MId where
  | m1
  | m2
deriving DecidableEq, Repr

/-- The previous-position state `prev_pos` after initialization: one point per
identity. -/
structure PrevPos where
  marker1 : Pt
  marker2 : Pt
deriving DecidableEq, Repr

/-- Look up one identity's previous position. -/
def PrevPos.get : PrevPos → MId → Pt
  | s, .m1 => s.marker1
  | s, .m2 => s.marker2

/-- Candidate collection (lines 177-186): points in frame order in the outer
loop, identities in dictionary insertion order (`marker1` then `marker2`) in
the inner loop; a pair `(point, identity)` is recorded whenever the distance
gate passes, with no deduplication by point or identity.  The recorded
distance (third tuple component in the Python) is never read afterwards and is
omitted. -/
def candidates (mx : ℚ) (prev : PrevPos) (ms : List Pt) : List (Pt × MId) :=
  ms.flatMap fun p =>
    (if gate mx p prev.marker1 then [(p, MId.m1)] else []) ++
      (if gate mx p prev.marker2 then [(p, MId.m2)] else [])

/-- The failure modes of `label_markers`: too few columns (line 140-142),
wrong marker count on the initialization row (lines 169-171), and track loss
on a later row (lines 188-189). -/
inductive LabelErr where
  | notEnoughColumns (got : ℕ)
  | initFailure (got : ℕ)
  | identityLost (frameIdx : ℕ)
deriving DecidableEq, Repr

/-- Write point `a` into columns `x1,y1,z1` and `b` into `x2,y2,z2`
(flat positions 0-5, lines 196-210), leaving any further columns unchanged. -/
def writeFirstSix (row : List ℚ) (a b : Pt) : List ℚ :=
  [a.x, a.y, a.z, b.x, b.y, b.z] ++ row.drop 6

/-- One per-frame update (lines 176-214), for a row of index `idx ≥ 2`:
collect candidates against the previous positions; demand exactly two; bind
the first candidate's identity to its own point and the other identity — by
elimination, the second candidate's recorded identity is never inspected — to
the second candidate's point; the new previous positions are the newly
written coordinates (lines 212-214). -/
def stepFrame (mx : ℚ) (ncols : ℕ) (prev : PrevPos) (row : List ℚ)
    (idx : ℕ) : Except LabelErr (PrevPos × List ℚ) :=
  match candidates mx prev (rowMarkers ncols row) with
  | [(p, mid), (q, _)] =>
    match mid with
    | .m1 => .ok (⟨p, q⟩, writeFirstSix row p q)
    | .m2 => .ok (⟨q, p⟩, writeFirstSix row q p)
  | _ => .error (.identityLost idx)

/-- The per-frame loop of `label_markers` from row index 2 on: thread the
previous-position state through `stepFrame`, stopping at the first error. -/
def runFrames (mx : ℚ) (ncols : ℕ) :
    PrevPos → ℕ → List (List ℚ) → Except LabelErr (List (List ℚ))
  | _, _, [] => .ok []
  | prev, idx, row :: rest =>
    match stepFrame mx ncols prev row idx with
    | .error e => .error e
    | .ok (prevNext, rowOut) =>
      match runFrames mx ncols prevNext (idx + 1) rest with
      | .error e => .error e
      | .ok outs => .ok (rowOut :: outs)

/-- The dataframe read by `label_markers`: a fixed column count (pandas knows
it from the header even when there are no data rows) and the data rows, each
a flat list of values laid out as `x1,y1,z1,x2,y2,z2,…`. -/
structure Df where
  ncols : ℕ
  rows : List (List ℚ)
deriving Repr

/-- The function `label_markers` (lines 129-228), from the dataframe to the saved labelled
table (or the reason the run produced no output).  The loop
`for idx in range(1, len(labelled))` skips row 0 entirely; row index 1 is the
initialization row (`if idx == 1`): its non-sentinel markers must number
exactly 2 and become the initial previous positions in frame order; rows from
index 2 on go through `stepFrame`; at the end every row is truncated to its
first 6 columns (line 217) and the result is saved. -/
def label_markers (df : Df) (mx : ℚ) : Except LabelErr (List (List ℚ)) :=
  if df.ncols < 6 then .error (.notEnoughColumns df.ncols)
  else
    match df.rows with
    | [] => .ok []
    | [r0] => .ok [r0.take 6]
    | r0 :: r1 :: rest =>
      match rowMarkers df.ncols r1 with
      | [m0, m1] =>
        match runFrames mx df.ncols ⟨m0, m1⟩ 2 rest with
        | .error e => .error e
        | .ok outs => .ok ((r0 :: r1 :: outs).map fun r => r.take 6)
      | ms => .error (.initFailure ms.length)

/-- Constant from `config.py`: `NDI_MAX_POSITION_CHANGE = 5.0` (mm). -/
def MAX_POSITION_CHANGE : ℚ := 5

/-- Constant from `config.py`: `NDI_ORIGINAL_FRAME_RATE = 60` (Hz). -/
def ORIGINAL_FRAME_RATE : ℚ := 60

/-- Constant from `config.py`: `NDI_DESIRED_FRAME_RATE = 100` (Hz). -/
def DESIRED_FRAME_RATE : ℚ := 100

/-! The resampler (`interpolate_data`, lines 230-263).

Times are exact rationals; `np.arange(0, stop, step)` for a positive `step` is
modelled by its exact semantics: the values `0, step, 2·step, …` strictly
below `stop`, of which there are `max 0 ⌈stop/step⌉`. -/

/-- Element count of `np.arange(0, stop, step)` for `step > 0`:
`⌈stop / step⌉`, clamped to 0 when `stop ≤ 0`. -/
def arangeLen (stop step : ℚ) : ℕ :=
  (Int.ceil (stop / step)).toNat

/-- The source axis `original_time = np.arange(len(df)) / ORIGINAL_FRAME_RATE` (line 241): the
source time axis `tᵢ = i / origin_rate`, `i = 0 .. n-1`. -/
def originalTime (n : ℕ) (originRate : ℚ) : List ℚ :=
  (List.range n).map fun i : ℕ => (i : ℚ) / originRate

/-- The target axis `desired_time = np.arange(0, original_time[-1], 1/DESIRED_FRAME_RATE)`
(line 242): the target time axis, values `j · (1/target_rate)` strictly below
the last source timestamp `(n-1)/origin_rate`. -/
def desiredTime (n : ℕ) (originRate targetRate : ℚ) : List ℚ :=
  (List.range (arangeLen (((n : ℚ) - 1) / originRate) (1 / targetRate))).map
    fun j : ℕ => (j : ℚ) * (1 / targetRate)

/-- The failure modes of `interpolate_data`: an empty input makes
`original_time[-1]` (line 242) an out-of-bounds index before any fitting, and
a cubic fit needs at least 4 sample points. -/
inductive InterpErr where
  | emptyInput
  | insufficientSamples
deriving DecidableEq, Repr

/-- Modelled from the spec: `scipy.interpolate.interp1d(..., kind='cubic')`
(line 250, scipy is an external dependency, its code is not in this
repository) rejects columns with fewer than 4 sample points — the
`InsufficientSamples` condition; with `bounds_error=False,
fill_value='extrapolate'` its evaluation is total, so beyond this arity check
the fit contributes no control flow. -/
def cubicFitCheck (n : ℕ) : Except InterpErr Unit :=
  if n < 4 then .error .insufficientSamples else .ok ()

/-- Modelled from the spec: with `fill_value='extrapolate'`, `interp1d`
extrapolates exactly at evaluation points outside the closed source range,
which here is `[0, (n-1)/origin_rate]` (the first and last entries of
`original_time`). -/
def needsExtrapolation (n : ℕ) (originRate : ℚ) (t : ℚ) : Bool :=
  decide (t < 0 ∨ ((n : ℚ) - 1) / originRate < t)

/-- The function `interpolate_data` (lines 230-263): build the two time axes (failing on an
empty input at `original_time[-1]`), fit each column — every column of the
dataframe has the same sample count `n`, so the arity check is uniform — and
evaluate each fitted column at every target timestamp.  The produced table
has one row per target timestamp; the returned value is the target time axis,
which carries the output row count and the evaluation points. -/
def interpolate_data (n : ℕ) (originRate targetRate : ℚ) :
    Except InterpErr (List ℚ) :=
  if n = 0 then .error .emptyInput
  else
    match cubicFitCheck n with
    | .error e => .error e
    | .ok _ => .ok (desiredTime n originRate targetRate)

/-! Helper lemmas. -/

/-- A pair recorded by the candidate collection names a point of the frame and
an identity whose distance gate that point passes. -/
lemma mem_candidates {mx : ℚ} {prev : PrevPos} {ms : List Pt} {p : Pt}
    {mid : MId} (h : (p, mid) ∈ candidates mx prev ms) :
    p ∈ ms ∧ gate mx p (prev.get mid) = true := by
  unfold candidates at h
  rw [List.mem_flatMap] at h
  obtain ⟨q, hq, hpq⟩ := h
  rw [List.mem_append] at hpq
  rcases hpq with hpq | hpq
  · by_cases hg : gate mx q prev.marker1
    · rw [if_pos hg] at hpq
      simp only [List.mem_singleton, Prod.mk.injEq] at hpq
      obtain ⟨rfl, rfl⟩ := hpq
      exact ⟨hq, hg⟩
    · rw [if_neg hg] at hpq
      simp at hpq
  · by_cases hg : gate mx q prev.marker2
    · rw [if_pos hg] at hpq
      simp only [List.mem_singleton, Prod.mk.injEq] at hpq
      obtain ⟨rfl, rfl⟩ := hpq
      exact ⟨hq, hg⟩
    · rw [if_neg hg] at hpq
      simp at hpq

/-- Every extracted marker of a frame is a non-sentinel point. -/
lemma not_sentinel_of_mem_rowMarkers {ncols : ℕ} {row : List ℚ} {p : Pt}
    (h : p ∈ rowMarkers ncols row) : isSentinel p = false := by
  unfold rowMarkers at h
  rw [List.mem_filterMap] at h
  obtain ⟨i, _, hi⟩ := h
  by_cases hs : isSentinel (tripleAt row i)
  · simp [hs] at hi
  · rw [if_neg hs] at hi
    cases hi
    exact Bool.not_eq_true _ ▸ (by simpa using hs)

/-- A successful per-frame step writes two frame markers into the first six
columns and makes them the new previous positions. -/
lemma stepFrame_ok_shape {mx : ℚ} {ncols : ℕ} {prev prevNext : PrevPos}
    {row out : List ℚ} {idx : ℕ}
    (h : stepFrame mx ncols prev row idx = .ok (prevNext, out)) :
    ∃ a b, a ∈ rowMarkers ncols row ∧ b ∈ rowMarkers ncols row ∧
      prevNext = ⟨a, b⟩ ∧ out = writeFirstSix row a b := by
  rcases hc : candidates mx prev (rowMarkers ncols row) with
    _ | ⟨⟨p, i1⟩, _ | ⟨⟨q, i2⟩, _ | ⟨⟨r3, i3⟩, t⟩⟩⟩
  · simp [stepFrame, hc] at h
  · simp [stepFrame, hc] at h
  · have hp : p ∈ rowMarkers ncols row :=
      (mem_candidates (hc ▸ List.mem_cons_self _ _)).1
    have hq : q ∈ rowMarkers ncols row :=
      (mem_candidates (hc ▸ List.mem_cons_of_mem _ (List.mem_cons_self _ _))).1
    cases i1 <;> simp [stepFrame, hc] at h <;>
      exact ⟨_, _, by tauto, by tauto, h.1.symm, h.2.symm⟩
  · simp [stepFrame, hc] at h

/-- Every row produced by the per-frame loop is some input row with two
non-sentinel markers written into its first six columns. -/
lemma runFrames_rows {mx : ℚ} {ncols : ℕ} {prev : PrevPos} {idx : ℕ}
    {frames outs : List (List ℚ)}
    (h : runFrames mx ncols prev idx frames = .ok outs) :
    ∀ r ∈ outs, ∃ row a b, isSentinel a = false ∧ isSentinel b = false ∧
      r = writeFirstSix row a b := by
  induction frames generalizing prev idx outs with
  | nil =>
    simp only [runFrames, Except.ok.injEq] at h
    subst h
    simp
  | cons row rest ih =>
    rw [runFrames] at h
    rcases hs : stepFrame mx ncols prev row idx with e | ⟨prevNext, rowOut⟩
    · simp [hs] at h
    · simp only [hs] at h
      rcases hr : runFrames mx ncols prevNext (idx + 1) rest with e | outs2
      · simp [hr] at h
      · simp only [hr, Except.ok.injEq] at h
        subst h
        intro r hrmem
        rcases List.mem_cons.1 hrmem with rfl | hmem
        · obtain ⟨a, b, ha, hb, _, hout⟩ := stepFrame_ok_shape hs
          exact ⟨row, a, b, not_sentinel_of_mem_rowMarkers ha,
            not_sentinel_of_mem_rowMarkers hb, hout⟩
        · exact ih hr r hmem

/-- Truncating a written row to 6 columns leaves exactly the two written
coordinate triples. -/
lemma take_writeFirstSix (row : List ℚ) (a b : Pt) :
    (writeFirstSix row a b).take 6 = [a.x, a.y, a.z, b.x, b.y, b.z] := rfl

/-- The two coordinate triples of a truncated written row are the written
points. -/
lemma tripleAt_writeFirstSix_take (row : List ℚ) (a b : Pt) :
    tripleAt ((writeFirstSix row a b).take 6) 0 = a ∧
    tripleAt ((writeFirstSix row a b).take 6) 1 = b := ⟨rfl, rfl⟩

/-- A target-axis index is in range exactly when its timestamp lies strictly
below the last source timestamp. -/
lemma lt_desiredTime_length_iff {n : ℕ} {o t : ℚ} (ht : 0 < t) (j : ℕ) :
    j < (desiredTime n o t).length ↔
      (j : ℚ) / t < ((n : ℚ) - 1) / o := by
  unfold desiredTime arangeLen
  rw [List.length_map, List.length_range, Int.lt_toNat, Int.lt_ceil,
    div_div_eq_mul_div, div_one, div_lt_iff₀ ht]
  push_cast
  tauto

/-- The `j`-th target timestamp is `j · (1/target_rate)`. -/
lemma desiredTime_getElem {n : ℕ} {o t : ℚ} {j : ℕ}
    (hj : j < (desiredTime n o t).length) :
    (desiredTime n o t)[j]? = some ((j : ℚ) * (1 / t)) := by
  unfold desiredTime at hj ⊢
  rw [List.length_map, List.length_range] at hj
  rw [List.getElem?_map, List.getElem?_range hj]
  rfl

/-! Claims. -/

/-- Claim C8 —: if the input has fewer than 2 rows (and the column-count check
passes), the per-frame loop `for idx in range(1, len(labelled))` never
executes: no initialization check runs, no failure is raised, and the saved
output is the input truncated to its first 6 columns. -/
theorem C8_short_input_passthrough (df : Df) (mx : ℚ)
    (hcols : ¬ df.ncols < 6) (hshort : df.rows.length < 2) :
    label_markers df mx = .ok (df.rows.map fun r => r.take 6) := by
  rcases hrows : df.rows with _ | ⟨r0, _ | ⟨r1, rest⟩⟩
  · simp [label_markers, hcols, hrows]
  · simp [label_markers, hcols, hrows]
  · rw [hrows] at hshort
    simp only [List.length_cons] at hshort
    omega

/-- Witness for C8: a one-row input (with 7 columns) is passed through,
truncated to 6 columns, with no error. -/
theorem C8_short_input_passthrough_witness :
    label_markers ⟨7, [[3,3,3,4,4,4,9]]⟩ 5 = .ok [[3,3,3,4,4,4]] :=
  C8_short_input_passthrough ⟨7, [[3,3,3,4,4,4,9]]⟩ 5 (by decide) (by decide)

/-- Claim C9 —: in every successful run the first two rows are passed through
unmodified (the loop writes only at indices ≥ 2, and the initialization row
is only read): output rows 0 and 1 equal the corresponding input rows
restricted to the first 6 columns, exactly as read. -/
theorem C9_first_two_rows_preserved (df : Df) (mx : ℚ)
    (out : List (List ℚ)) (h : label_markers df mx = .ok out)
    (i : ℕ) (hi : i < 2) :
    out[i]? = (df.rows[i]?).map fun r => r.take 6 := by
  by_cases hcols : df.ncols < 6
  · simp [label_markers, hcols] at h
  rcases hrows : df.rows with _ | ⟨r0, _ | ⟨r1, rest⟩⟩
  · simp [label_markers, hcols, hrows] at h
    subst h
    simp
  · simp [label_markers, hcols, hrows] at h
    subst h
    interval_cases i <;> simp
  · simp only [label_markers, if_neg hcols, hrows] at h
    rcases hm : rowMarkers df.ncols r1 with _ | ⟨m0, _ | ⟨m1, _ | ⟨m2, ms⟩⟩⟩ <;>
      simp only [hm] at h
    · simp at h
    · simp at h
    · rcases hr : runFrames mx df.ncols ⟨m0, m1⟩ 2 rest with e | outs <;>
        simp only [hr] at h
      · simp at h
      · simp only [Except.ok.injEq] at h
        subst h
        interval_cases i <;> simp
    · simp at h

/-- Witness for C9: the first row of a successful three-row run is returned
exactly as read — here it is a pair of sentinel triples. -/
theorem C9_first_two_rows_preserved_witness :
    ([[0,0,0,8,8,8],[40,0,0,50,0,0],[40,0,1,50,0,1]] : List (List ℚ))[0]? =
      some [0,0,0,8,8,8] :=
  C9_first_two_rows_preserved ⟨6, [[0,0,0,8,8,8],[40,0,0,50,0,0],[40,0,1,50,0,1]]⟩
    5 [[0,0,0,8,8,8],[40,0,0,50,0,0],[40,0,1,50,0,1]]
    (by with_unfolding_all rfl) 0 (by decide)

/-- Claim C2 (counterexample) —: the claim places initialization on frame 0, the
first row of the input, and demands that a run whose first frame does not
have exactly 2 non-sentinel points fail with no output.  Here the first row
consists of two sentinel triples — 0 non-sentinel points — yet the run
completes successfully with output: the loop starts at row index 1 and never
examines row 0. -/
theorem C2_counterexample :
    (rowMarkers 6 [0,0,0,0,0,0]).length = 0 ∧
    label_markers ⟨6, [[0,0,0,0,0,0],[1,1,1,2,2,2]]⟩ 5 =
      .ok [[0,0,0,0,0,0],[1,1,1,2,2,2]] :=
  ⟨by with_unfolding_all rfl, by with_unfolding_all rfl⟩

/-- Claim C2 (amended) —: `label_markers` performs its initialization on row
index 1, the second row of the input (row 0 is never examined): the
non-sentinel points of that row must number exactly 2; they become the
initial previous positions bound to identities 1 and 2 in the order they
appear in the row; if their count differs, the run fails with
`initFailure` and produces no output. -/
theorem C2_init_on_row_one (df : Df) (mx : ℚ) (r0 r1 : List ℚ)
    (rest : List (List ℚ)) (hrows : df.rows = r0 :: r1 :: rest)
    (hcols : ¬ df.ncols < 6) :
    ((rowMarkers df.ncols r1).length ≠ 2 →
      label_markers df mx =
        .error (.initFailure (rowMarkers df.ncols r1).length)) ∧
    (∀ m0 m1, rowMarkers df.ncols r1 = [m0, m1] →
      label_markers df mx =
        (runFrames mx df.ncols ⟨m0, m1⟩ 2 rest).map
          fun outs => (r0 :: r1 :: outs).map fun r => r.take 6) := by
  constructor
  · intro hlen
    simp only [label_markers, if_neg hcols, hrows]
    rcases hm : rowMarkers df.ncols r1 with _ | ⟨m0, _ | ⟨m1, _ | ⟨m2, ms⟩⟩⟩
    · simp [hm]
    · simp [hm]
    · rw [hm] at hlen
      simp at hlen
    · simp [hm]
  · intro m0 m1 hm
    simp only [label_markers, if_neg hcols, hrows, hm]
    rcases hr : runFrames mx df.ncols ⟨m0, m1⟩ 2 rest with e | outs <;>
      simp [hr, Except.map]

/-- Witness for C2 (amended): the second row of this input holds no
non-sentinel point, so the run fails with `initFailure 0`. -/
theorem C2_init_on_row_one_witness :
    label_markers ⟨6, [[1,1,1,2,2,2],[0,0,0,0,0,0]]⟩ 5 =
      .error (.initFailure 0) :=
  (C2_init_on_row_one ⟨6, [[1,1,1,2,2,2],[0,0,0,0,0,0]]⟩ 5
      [1,1,1,2,2,2] [0,0,0,0,0,0] [] rfl (by decide)).1
    (by with_unfolding_all decide)

/-- Claim C3 —: on each per-frame update the first candidate pair's identity is
bound to that candidate's point, and the other identity — obtained by
elimination from the first candidate's identity; the second candidate's own
recorded identity (the free `mid2` below) is never inspected — is bound to
the second candidate's point; the new previous-position state consists of
exactly the newly bound coordinates. -/
theorem C3_first_candidate_assignment (mx : ℚ) (ncols : ℕ) (prev : PrevPos)
    (row : List ℚ) (idx : ℕ) (p q : Pt) (mid1 mid2 : MId)
    (h : candidates mx prev (rowMarkers ncols row) = [(p, mid1), (q, mid2)]) :
    (mid1 = .m1 →
      stepFrame mx ncols prev row idx = .ok (⟨p, q⟩, writeFirstSix row p q)) ∧
    (mid1 = .m2 →
      stepFrame mx ncols prev row idx = .ok (⟨q, p⟩, writeFirstSix row q p)) := by
  constructor <;> rintro rfl <;> simp [stepFrame, h]

/-- Witness for C3: a concrete frame where both candidates match their own
identities; the first candidate carries identity 1, so identity 1 takes its
point and identity 2 takes the second candidate's point. -/
theorem C3_first_candidate_assignment_witness :
    stepFrame 5 6 ⟨⟨0,0,7⟩,⟨50,0,0⟩⟩ [1,0,7,51,0,0] 2 =
      .ok (⟨⟨1,0,7⟩,⟨51,0,0⟩⟩, [1,0,7,51,0,0]) :=
  (C3_first_candidate_assignment 5 6 ⟨⟨0,0,7⟩,⟨50,0,0⟩⟩ [1,0,7,51,0,0] 2
      ⟨1,0,7⟩ ⟨51,0,0⟩ .m1 .m2 (by with_unfolding_all rfl)).1 rfl

/-- Claim C4 —: candidate collection iterates the frame's non-sentinel points in
the outer loop and the identities (in dictionary order `marker1`, `marker2`)
in the inner loop, recording a pair whenever the strict distance gate passes,
with no deduplication by point or identity (first conjunct: the collection in
its filter normal form).  If the resulting list does not have exactly 2
entries, the per-frame loop fails with `identityLost` carrying that frame's
row index and aborts at once (second conjunct), and `label_markers`
propagates the error, so no labelled output is produced (third conjunct). -/
theorem C4_candidate_collection_and_identity_lost (mx : ℚ) (ncols : ℕ)
    (prev : PrevPos) (ms : List Pt) (row : List ℚ) (rest : List (List ℚ))
    (idx : ℕ) :
    (candidates mx prev ms =
      ms.flatMap fun p =>
        ([MId.m1, MId.m2].filter fun mid => gate mx p (prev.get mid)).map
          fun mid => (p, mid)) ∧
    ((candidates mx prev (rowMarkers ncols row)).length ≠ 2 →
      runFrames mx ncols prev idx (row :: rest) =
        .error (.identityLost idx)) ∧
    (∀ (df : Df) (r0 r1 : List ℚ) (tail : List (List ℚ)) (m0 m1 : Pt)
        (e : LabelErr), df.rows = r0 :: r1 :: tail → ¬ df.ncols < 6 →
      rowMarkers df.ncols r1 = [m0, m1] →
      runFrames mx df.ncols ⟨m0, m1⟩ 2 tail = .error e →
      label_markers df mx = .error e) := by
  refine ⟨?_, ?_, ?_⟩
  · unfold candidates
    congr 1
    funext p
    by_cases h1 : gate mx p prev.marker1 <;>
      by_cases h2 : gate mx p prev.marker2 <;>
        simp [List.filter_cons, PrevPos.get, h1, h2]
  · intro hlen
    have hstep : stepFrame mx ncols prev row idx =
        .error (.identityLost idx) := by
      rcases hc : candidates mx prev (rowMarkers ncols row) with
        _ | ⟨⟨a, i1⟩, _ | ⟨⟨b, i2⟩, _ | ⟨⟨c, i3⟩, t⟩⟩⟩
      · simp [stepFrame, hc]
      · simp [stepFrame, hc]
      · rw [hc] at hlen
        simp at hlen
      · simp [stepFrame, hc]
    simp [runFrames, hstep]
  · intro df r0 r1 tail m0 m1 e hrows hcols hm hr
    simp [label_markers, if_neg hcols, hrows, hm, hr]

/-- Witness for C4: with previous positions far from every point of the
frame, no candidate is recorded, and the loop fails with `identityLost 2` at
the first processed row. -/
theorem C4_candidate_collection_and_identity_lost_witness :
    runFrames 5 6 ⟨⟨1,2,3⟩,⟨4,5,6⟩⟩ 2 [[200,200,200,300,300,300]] =
      .error (.identityLost 2) :=
  (C4_candidate_collection_and_identity_lost 5 6 ⟨⟨1,2,3⟩,⟨4,5,6⟩⟩ []
      [200,200,200,300,300,300] [] 2).2.1 (by with_unfolding_all decide)

/-- Claim C1 (counterexample) —: a successful run in which an identity's resolved
position jumps farther than `max_position_change` between consecutive
frames.  With previous positions `(10,0,0)` and `(100,0,0)` and gate 5, the
frame `[11,0,0,12,0,0]` yields the candidates `((11,0,0), marker1)` and
`((12,0,0), marker1)` — both recorded against identity 1 — so identity 2 is
bound by elimination to `(12,0,0)`, a jump of 88 from its resolved position
`(100,0,0)` at the previous frame, and the run still completes. -/
theorem C1_counterexample :
    label_markers ⟨6, [[1,1,1,2,2,2],[10,0,0,100,0,0],[11,0,0,12,0,0]]⟩ 5 =
      .ok [[1,1,1,2,2,2],[10,0,0,100,0,0],[11,0,0,12,0,0]] ∧
    tripleAt [10,0,0,100,0,0] 1 = ⟨100,0,0⟩ ∧
    tripleAt [11,0,0,12,0,0] 1 = ⟨12,0,0⟩ ∧
    gate 5 ⟨12,0,0⟩ ⟨100,0,0⟩ = false :=
  ⟨by with_unfolding_all rfl, by with_unfolding_all rfl,
    by with_unfolding_all rfl, by with_unfolding_all rfl⟩

/-- Claim C1 (amended) —: identity continuity holds at every per-frame step whose
two candidate pairs carry distinct recorded identities: each identity's newly
resolved position passes the distance gate against that identity's previous
position.  (When both candidates record the same identity, the
elimination-assigned identity may jump arbitrarily — see the
counterexample.) -/
theorem C1_continuity_of_distinct_candidates (mx : ℚ) (ncols : ℕ)
    (prev prevNext : PrevPos) (row out : List ℚ) (idx : ℕ)
    (h : stepFrame mx ncols prev row idx = .ok (prevNext, out))
    (hids : ((candidates mx prev (rowMarkers ncols row)).map Prod.snd).Nodup) :
    gate mx prevNext.marker1 prev.marker1 = true ∧
    gate mx prevNext.marker2 prev.marker2 = true := by
  rcases hc : candidates mx prev (rowMarkers ncols row) with
    _ | ⟨⟨p, i1⟩, _ | ⟨⟨q, i2⟩, _ | ⟨⟨r3, i3⟩, t⟩⟩⟩
  · simp [stepFrame, hc] at h
  · simp [stepFrame, hc] at h
  · rw [hc] at hids
    simp only [List.map_cons, List.map_nil, List.nodup_cons,
      List.mem_singleton, List.not_mem_nil, List.nodup_nil] at hids
    have hne : i1 ≠ i2 := by tauto
    have hp := mem_candidates (hc ▸ List.mem_cons_self _ _)
    have hq := mem_candidates
      (hc ▸ List.mem_cons_of_mem _ (List.mem_cons_self _ _))
    cases i1 <;> cases i2
    · exact absurd rfl hne
    · simp only [stepFrame, hc] at h
      rw [Except.ok.injEq, Prod.mk.injEq] at h
      obtain ⟨h1, h2⟩ := h
      rw [h1.symm]
      exact ⟨hp.2, hq.2⟩
    · simp only [stepFrame, hc] at h
      rw [Except.ok.injEq, Prod.mk.injEq] at h
      obtain ⟨h1, h2⟩ := h
      rw [h1.symm]
      exact ⟨hq.2, hp.2⟩
    · exact absurd rfl hne
  · simp [stepFrame, hc] at h

/-- Witness for C1 (amended): a step whose two candidates carry the distinct
identities 1 and 2; both identities' new positions pass the gate against
their previous positions. -/
theorem C1_continuity_of_distinct_candidates_witness :
    gate 5 ⟨0,1,20⟩ ⟨0,0,20⟩ = true ∧ gate 5 ⟨30,1,0⟩ ⟨30,0,0⟩ = true :=
  C1_continuity_of_distinct_candidates 5 6 ⟨⟨0,0,20⟩,⟨30,0,0⟩⟩
    ⟨⟨0,1,20⟩,⟨30,1,0⟩⟩ [0,1,20,30,1,0] [0,1,20,30,1,0] 2
    (by with_unfolding_all rfl) (by with_unfolding_all decide)

/-- Claim C5 (counterexample) —: a successful run whose output contains a
sentinel `(0,0,0)` triple: the first row is passed through unmodified, and
here it holds a sentinel.  (This refutes "every produced coordinate is …
neither NaN nor part of a sentinel (0,0,0) triple" for the produced
Track.) -/
theorem C5_counterexample :
    label_markers
        ⟨6, [[0,0,0,7,7,7],[10,10,10,20,20,20],[10,10,11,20,20,21]]⟩ 2 =
      .ok [[0,0,0,7,7,7],[10,10,10,20,20,20],[10,10,11,20,20,21]] ∧
    isSentinel (tripleAt [0,0,0,7,7,7] 0) = true :=
  ⟨by with_unfolding_all rfl, by with_unfolding_all rfl⟩

/-- Claim C5 (amended) —: in every successful run (on a well-formed dataframe,
all rows sharing the column count) every output row has exactly 6 entries —
`marker_count · 3` coordinates; rows from index 2 on contain no sentinel
triple in either marker slot, since their coordinates are rewritten from
non-sentinel frame points.  Rows 0 and 1 are passed through as read and may
still contain sentinel triples (see the counterexample). -/
theorem C5_output_shape (df : Df) (mx : ℚ) (out : List (List ℚ))
    (hwf : ∀ r ∈ df.rows, r.length = df.ncols)
    (h : label_markers df mx = .ok out) :
    (∀ r ∈ out, r.length = 6) ∧
    (∀ r ∈ out.drop 2,
      isSentinel (tripleAt r 0) = false ∧ isSentinel (tripleAt r 1) = false) := by
  by_cases hcols : df.ncols < 6
  · simp [label_markers, hcols] at h
  rcases hrows : df.rows with _ | ⟨r0, _ | ⟨r1, rest⟩⟩
  · simp only [label_markers, if_neg hcols, hrows, Except.ok.injEq] at h
    subst h
    simp
  · simp only [label_markers, if_neg hcols, hrows, Except.ok.injEq] at h
    subst h
    refine ⟨?_, by simp⟩
    intro r hr
    rw [List.mem_singleton] at hr
    subst hr
    have hlen0 : r0.length = df.ncols := hwf _ (by rw [hrows]; simp)
    rw [List.length_take, hlen0]
    omega
  · simp only [label_markers, if_neg hcols, hrows] at h
    rcases hm : rowMarkers df.ncols r1 with _ | ⟨m0, _ | ⟨m1, _ | ⟨m2, ms⟩⟩⟩ <;>
      simp only [hm] at h
    · simp at h
    · simp at h
    · rcases hr : runFrames mx df.ncols ⟨m0, m1⟩ 2 rest with e | outs <;>
        simp only [hr] at h
      · simp at h
      · simp only [Except.ok.injEq] at h
        subst h
        have hlen0 : r0.length = df.ncols := hwf _ (by rw [hrows]; simp)
        have hlen1 : r1.length = df.ncols := hwf _ (by rw [hrows]; simp)
        constructor
        · intro r hrmem
          simp only [List.map_cons, List.mem_cons] at hrmem
          rcases hrmem with rfl | hrmem
          · rw [List.length_take, hlen0]
            omega
          rcases hrmem with rfl | hrmem
          · rw [List.length_take, hlen1]
            omega
          rw [List.mem_map] at hrmem
          obtain ⟨r2, hr2, rfl⟩ := hrmem
          obtain ⟨row, a, b, ha, hb, rfl⟩ := runFrames_rows hr r2 hr2
          rw [take_writeFirstSix]
          rfl
        · intro r hrmem
          simp only [List.map_cons, List.drop_succ_cons, List.drop_zero] at hrmem
          rw [List.mem_map] at hrmem
          obtain ⟨r2, hr2, rfl⟩ := hrmem
          obtain ⟨row, a, b, ha, hb, rfl⟩ := runFrames_rows hr r2 hr2
          rw [(tripleAt_writeFirstSix_take row a b).1,
            (tripleAt_writeFirstSix_take row a b).2]
          exact ⟨ha, hb⟩
    · simp at h

/-- Witness for C5 (amended): in a concrete successful three-row run, the
last output row has 6 entries and a non-sentinel first triple. -/
theorem C5_output_shape_witness :
    ([10,10,11,20,20,21] : List ℚ).length = 6 ∧
    isSentinel (tripleAt ([10,10,11,20,20,21] : List ℚ) 0) = false := by
  have h := C5_output_shape
    ⟨6, [[5,5,5,6,6,6],[10,10,10,20,20,20],[10,10,11,20,20,21]]⟩ 2
    [[5,5,5,6,6,6],[10,10,10,20,20,20],[10,10,11,20,20,21]]
    (by with_unfolding_all decide) (by with_unfolding_all rfl)
  exact ⟨h.1 _ (by with_unfolding_all decide),
    (h.2 _ (by with_unfolding_all decide)).1⟩

/-- Claim C6 —: the resampler's source time axis is `tᵢ = i/origin_rate` for
`i = 0..N-1`; the target axis consists of `t'ⱼ = j/target_rate` for exactly
those `j = 0, 1, 2, …` with `t'ⱼ` strictly below the last source timestamp
`t_{N-1} = (N-1)/origin_rate`; and a successful resample produces one output
row per target timestamp. -/
theorem C6_time_axes (n : ℕ) (o t : ℚ) (_ho : 0 < o) (ht : 0 < t) :
    ((originalTime n o).length = n ∧
      ∀ i : ℕ, i < n → (originalTime n o)[i]? = some ((i : ℚ) / o)) ∧
    (∀ j : ℕ, j < (desiredTime n o t).length →
      (desiredTime n o t)[j]? = some ((j : ℚ) / t)) ∧
    (∀ j : ℕ, j < (desiredTime n o t).length ↔
      (j : ℚ) / t < ((n : ℚ) - 1) / o) ∧
    (∀ ts, interpolate_data n o t = .ok ts →
      ts.length = (desiredTime n o t).length) := by
  refine ⟨⟨?_, ?_⟩, ?_, ?_, ?_⟩
  · simp [originalTime]
  · intro i hi
    unfold originalTime
    rw [List.getElem?_map, List.getElem?_range hi]
    rfl
  · intro j hj
    rw [desiredTime_getElem hj, mul_one_div]
  · exact lt_desiredTime_length_iff ht
  · intro ts hts
    unfold interpolate_data cubicFitCheck at hts
    by_cases h0 : n = 0
    · simp [h0] at hts
    by_cases h4 : n < 4
    · simp [h0, h4] at hts
    simp only [h0, h4, if_false, if_neg, Except.ok.injEq] at hts
    rw [← hts]

/-- Witness for C6: at the configured rates 60 Hz → 100 Hz, a 10-sample track
has exactly 15 target timestamps (`j/100 < 9/60` for `j = 0..14`). -/
theorem C6_time_axes_witness :
    14 < (desiredTime 10 ORIGINAL_FRAME_RATE DESIRED_FRAME_RATE).length :=
  ((C6_time_axes 10 ORIGINAL_FRAME_RATE DESIRED_FRAME_RATE
      (by norm_num [ORIGINAL_FRAME_RATE])
      (by norm_num [DESIRED_FRAME_RATE])).2.2.1 14).mpr
    (by norm_num [ORIGINAL_FRAME_RATE, DESIRED_FRAME_RATE])

/-- Claim C7 (counterexample) —: a column with 0 samples has fewer than 4
samples, yet the stage does not fail with `insufficientSamples`: it fails
earlier, indexing `original_time[-1]` on an empty axis (line 242), before any
cubic fit is attempted. -/
theorem C7_counterexample :
    interpolate_data 0 ORIGINAL_FRAME_RATE DESIRED_FRAME_RATE =
      .error .emptyInput ∧
    InterpErr.emptyInput ≠ InterpErr.insufficientSamples :=
  ⟨by with_unfolding_all rfl, by decide⟩

/-- Claim C7 (amended) —: a column with 1 to 3 samples makes the resample stage
fail with `insufficientSamples` (fatal); a column with 0 samples also fails
fatally, but with the empty-axis indexing error rather than
`insufficientSamples`; with 4 or more samples the cubic fit proceeds and the
stage succeeds. -/
theorem C7_insufficient_samples (n : ℕ) (o t : ℚ) :
    (n = 0 → interpolate_data n o t = .error .emptyInput) ∧
    (1 ≤ n → n < 4 → interpolate_data n o t = .error .insufficientSamples) ∧
    (4 ≤ n → interpolate_data n o t = .ok (desiredTime n o t)) := by
  refine ⟨fun h0 => ?_, fun h1 h4 => ?_, fun h4 => ?_⟩
  · simp [interpolate_data, h0]
  · have h0 : ¬ n = 0 := by omega
    simp [interpolate_data, cubicFitCheck, h0, h4]
  · have h0 : ¬ n = 0 := by omega
    have h4n : ¬ n < 4 := by omega
    simp [interpolate_data, cubicFitCheck, h0, h4n]

/-- Witness for C7 (amended): 3 samples fail with `insufficientSamples`; 4
samples succeed. -/
theorem C7_insufficient_samples_witness :
    interpolate_data 3 ORIGINAL_FRAME_RATE DESIRED_FRAME_RATE =
      .error .insufficientSamples ∧
    interpolate_data 4 ORIGINAL_FRAME_RATE DESIRED_FRAME_RATE =
      .ok (desiredTime 4 ORIGINAL_FRAME_RATE DESIRED_FRAME_RATE) :=
  ⟨(C7_insufficient_samples 3 ORIGINAL_FRAME_RATE DESIRED_FRAME_RATE).2.1
      (by norm_num) (by norm_num),
    (C7_insufficient_samples 4 ORIGINAL_FRAME_RATE DESIRED_FRAME_RATE).2.2
      (by norm_num)⟩

/-- Claim C10 —: every generated target timestamp lies in the closed source
interval `[0, t_{N-1}]`, so although the interpolator is configured to
extrapolate, the extrapolation branch is never exercised: every output value
is an interpolation inside the source range. -/
theorem C10_no_extrapolation (n : ℕ) (o t : ℚ) (_ho : 0 < o) (ht : 0 < t)
    (_hn : 2 ≤ n) :
    ∀ x ∈ desiredTime n o t,
      0 ≤ x ∧ x ≤ ((n : ℚ) - 1) / o ∧ needsExtrapolation n o x = false := by
  intro x hx
  unfold desiredTime at hx
  rw [List.mem_map] at hx
  obtain ⟨j, hj, rfl⟩ := hx
  rw [List.mem_range] at hj
  have hj2 : (j : ℚ) / t < ((n : ℚ) - 1) / o := by
    rw [← lt_desiredTime_length_iff ht]
    unfold desiredTime
    rw [List.length_map, List.length_range]
    exact hj
  rw [mul_one_div]
  have h0 : 0 ≤ (j : ℚ) / t := by positivity
  refine ⟨h0, le_of_lt hj2, ?_⟩
  unfold needsExtrapolation
  rw [decide_eq_false_iff_not, not_or]
  exact ⟨not_lt.2 h0, not_lt.2 (le_of_lt hj2)⟩

/-- Witness for C10: at the configured rates, the timestamp `0` of a
10-sample track lies inside the source range and needs no extrapolation. -/
theorem C10_no_extrapolation_witness :
    0 ≤ (0 : ℚ) ∧ (0 : ℚ) ≤ (((10 : ℕ) : ℚ) - 1) / ORIGINAL_FRAME_RATE ∧
      needsExtrapolation 10 ORIGINAL_FRAME_RATE 0 = false :=
  C10_no_extrapolation 10 ORIGINAL_FRAME_RATE DESIRED_FRAME_RATE
    (by norm_num [ORIGINAL_FRAME_RATE]) (by norm_num [DESIRED_FRAME_RATE])
    (by norm_num) 0 (by with_unfolding_all decide)

end CATS
